import Mathlib

/-!
Shallow embedding of the DNS message codec from
`src/message/header.rs`, `src/message/question_answer.rs` and
`src/message/mod.rs`, together with proofs of the specified properties.

Machine integers (`u8`, `u16`) are modelled as `Nat`, with explicit
`% 256` / `% 65536` at the places where the Rust code truncates
(`as u8`, `as u16`, a shifted `u8`).  Byte buffers are `List Nat`
(each element a byte value).  Rust `String` label values are modelled
as their UTF-8 byte lists, with an explicit UTF-8 validity check where
the Rust code performs `String::from_utf8`.

Fallible Rust paths distinguish three outcomes: a recoverable error
(a `nom` error or an `anyhow` error), a process abort (the `todo`,
`unwrap`, `expect` and abort macros), and success.
-/

namespace DnsCodec

/-- Outcome of a fallible operation: success, recoverable error
(`nom`/`anyhow` `Err`), or process abort (Rust abort macros, `unwrap`,
`expect`, `todo`). -/
inductive Res (α : Type) where
  | ok : α → Res α
  | err : Res α
  | panicked : Res α
deriving DecidableEq, Repr

/-- Functorial map on the success value of a `Res`. -/
def Res.map {α β : Type} (f : α → β) : Res α → Res β
  | .ok a => .ok (f a)
  | .err => .err
  | .panicked => .panicked

/-- OPCODE enum from `header.rs` (`#[repr(u8)]`, Query = 0, IQuery = 1,
Status = 2, Invalid = 3 by successor-discriminant). -/
inductive OpCode where
  | Query
  | IQuery
  | Status
  | Invalid
deriving DecidableEq, Repr

/-- Discriminant of `OpCode` as used by `op_code as u8`. -/
def OpCode.toNat : OpCode → Nat
  | .Query => 0
  | .IQuery => 1
  | .Status => 2
  | .Invalid => 3

/-- RCODE enum from `header.rs` (`#[repr(u8)]`, Ok = 0 .. Refused = 5,
Invalid = 6 by successor-discriminant). -/
inductive ResponseCode where
  | Ok
  | FormatError
  | ServerFailure
  | NameError
  | NotImplemented
  | Refused
  | Invalid
deriving DecidableEq, Repr

/-- Discriminant of `ResponseCode` as used by `response_code as u8`. -/
def ResponseCode.toNat : ResponseCode → Nat
  | .Ok => 0
  | .FormatError => 1
  | .ServerFailure => 2
  | .NameError => 3
  | .NotImplemented => 4
  | .Refused => 5
  | .Invalid => 6

/-- Source `OpCode::parse` from `header.rs` lines 160-169. -/
def OpCode.parse (input : Nat) : OpCode :=
  if input = 0 then .Query
  else if input = 1 then .IQuery
  else if input = 2 then .Status
  else .Invalid

/-- Source `ResponseCode::parse` from `header.rs` lines 171-183. -/
def ResponseCode.parse (input : Nat) : ResponseCode :=
  if input = 0 then .Ok
  else if input = 1 then .FormatError
  else if input = 2 then .ServerFailure
  else if input = 3 then .NameError
  else if input = 4 then .NotImplemented
  else if input = 5 then .Refused
  else .Invalid

/-- The `Header` struct from `header.rs`.  `u16` fields are `Nat`
constrained by `Header.valid` where range matters. -/
structure Header where
  packet_id : Nat
  is_response : Bool
  op_code : OpCode
  authoritative_answer : Bool
  truncation : Bool
  recursion_desired : Bool
  recursion_available : Bool
  reserved : Nat
  response_code : ResponseCode
  question_count : Nat
  answer_record_count : Nat
  authority_record_count : Nat
  additional_record_count : Nat
deriving DecidableEq, Repr

/-- All bit-fields of the header are in range: the `u16` fields fit in
16 bits and the 3-bit reserved field is at most 7. -/
def Header.valid (h : Header) : Prop :=
  h.packet_id < 65536 ∧ h.reserved ≤ 7 ∧
    h.question_count < 65536 ∧ h.answer_record_count < 65536 ∧
    h.authority_record_count < 65536 ∧ h.additional_record_count < 65536

instance (h : Header) : Decidable h.valid := by
  unfold Header.valid; infer_instance

/-- Rust `bool as u8`. -/
def boolBit (b : Bool) : Nat := if b then 1 else 0

/-- Source `Header::parse` from `header.rs` lines 93-131: `be_u16`, two `u8`
reads unpacked into bit fields, then four `be_u16` counts; a `nom`
error when the input is exhausted early. -/
def Header.parse (input : List Nat) : Res (Header × List Nat) :=
  match input with
  | b0 :: b1 :: byte2 :: byte3 :: c0 :: c1 :: c2 :: c3 :: c4 :: c5 :: c6 :: c7 :: rest =>
    .ok ({ packet_id := b0 * 256 + b1
         , is_response := ((byte2 >>> 7) &&& 0x01) != 0
         , op_code := OpCode.parse ((byte2 >>> 3) &&& 0x0F)
         , authoritative_answer := ((byte2 >>> 2) &&& 0x01) != 0
         , truncation := ((byte2 >>> 1) &&& 0x01) != 0
         , recursion_desired := (byte2 &&& 0x01) != 0
         , recursion_available := ((byte3 >>> 7) &&& 0x01) != 0
         , reserved := (byte3 >>> 4) &&& 0x07
         , response_code := ResponseCode.parse (byte3 &&& 0x0F)
         , question_count := c0 * 256 + c1
         , answer_record_count := c2 * 256 + c3
         , authority_record_count := c4 * 256 + c5
         , additional_record_count := c6 * 256 + c7 }, rest)
  | _ => .err

/-- Rust `put_u16`: big-endian byte pair of a `u16` value. -/
def putU16 (x : Nat) : List Nat := [x / 256 % 256, x % 256]

/-- Source `Header::write` from `header.rs` lines 133-157: the id, the two
packed flag bytes, then the four counts.  `self.reserved << 4` is a
`u8` shift, hence the `% 256`. -/
def Header.write (h : Header) : List Nat :=
  putU16 h.packet_id ++
  [(boolBit h.is_response <<< 7) ||| (h.op_code.toNat <<< 3) |||
     (boolBit h.authoritative_answer <<< 2) ||| (boolBit h.truncation <<< 1) |||
     boolBit h.recursion_desired] ++
  [(boolBit h.recursion_available <<< 7) ||| ((h.reserved <<< 4) % 256) |||
     h.response_code.toNat] ++
  putU16 h.question_count ++ putU16 h.answer_record_count ++
  putU16 h.authority_record_count ++ putU16 h.additional_record_count

/-- Record TYPE enum from `question_answer.rs` lines 12-48. -/
inductive RecordType where
  | Address
  | NameServer
  | MailDestination
  | MailForwarder
  | CName
  | StartOfAuthority
  | Mailbox
  | MailGroup
  | MailRename
  | Null
  | WellKnownService
  | Pointer
  | HostInfo
  | MailboxInfo
  | MailExchange
  | Text
  | Invalid
deriving DecidableEq, Repr

/-- CLASS enum from `question_answer.rs` lines 50-62. -/
inductive Class where
  | Internet
  | CSNet
  | Chaos
  | Hesiod
  | Invalid
deriving DecidableEq, Repr

/-- A domain-name label, `question_answer.rs` lines 70-76.  A Rust
`String` value is modelled as its UTF-8 byte list. -/
inductive Label where
  | Value : List Nat → Label
  | Pointer : Nat → Label
deriving DecidableEq, Repr

/-- On-wire cost of one label as accumulated by `DomainName::length`
and `DomainName::get_label`: `1 + string.len() as u16` for a literal
(the cast truncates the byte length to 16 bits), 2 for a pointer.  The
enclosing u16 additions wrap and carry their own `% 65536`. -/
def Label.cost : Label → Nat
  | .Value s => 1 + s.length % 65536
  | .Pointer _ => 2

/-- The `DomainName` struct, `question_answer.rs` lines 64-68. -/
structure DomainName where
  labels : List Label
deriving DecidableEq, Repr

/-- Source `DomainName::length`, `question_answer.rs` lines 162-175: sum of
label costs, plus a final null byte when the last label is a literal.
The accumulator is a `u16`, so every addition wraps modulo 2^16
(release semantics; a debug build aborts at the same boundary).
`self.labels.last().unwrap()` aborts on an empty label list, hence the
`Option` (`none` = abort). -/
def DomainName.length (n : DomainName) : Option Nat :=
  let len := n.labels.foldl (fun acc l => (acc + l.cost) % 65536) 0
  match n.labels.getLast? with
  | none => none
  | some (.Value _) => some ((len + 1) % 65536)
  | some (.Pointer _) => some len

/-- Source `DomainName::get_label`, `question_answer.rs` lines 177-196: walk
the labels; at an exact boundary a literal is returned and a pointer is
an error; a non-boundary offset is an error.  The source tracks a
growing `name_offset`; this equivalent form shrinks `offset` by each
passed label's cost instead. -/
def getLabelGo : List Label → Nat → Res (List Nat)
  | [], _ => .err
  | l :: ls, off =>
    if off = 0 then
      match l with
      | .Value s => .ok s
      | .Pointer _ => .err
    else if off < l.cost then .err
    else getLabelGo ls (off - l.cost)

/-- Entry point of `DomainName::get_label`. -/
def DomainName.get_label (n : DomainName) (offset : Nat) : Res (List Nat) :=
  getLabelGo n.labels offset

/-- A UTF-8 continuation byte, `0x80..=0xBF`. -/
def isContByte (b : Nat) : Bool := 0x80 ≤ b && b ≤ 0xBF

/-- Validity of a byte sequence as UTF-8, exactly the condition under
which `String::from_utf8` succeeds (rejecting overlong forms,
surrogates and values beyond U+10FFFF). -/
def isValidUtf8 : List Nat → Bool
  | [] => true
  | b :: rest =>
    if b ≤ 0x7F then isValidUtf8 rest
    else if 0xC2 ≤ b && b ≤ 0xDF then
      match rest with
      | c1 :: r => isContByte c1 && isValidUtf8 r
      | [] => false
    else if b = 0xE0 then
      match rest with
      | c1 :: c2 :: r => (0xA0 ≤ c1 && c1 ≤ 0xBF) && isContByte c2 && isValidUtf8 r
      | _ => false
    else if (0xE1 ≤ b && b ≤ 0xEC) || b = 0xEE || b = 0xEF then
      match rest with
      | c1 :: c2 :: r => isContByte c1 && isContByte c2 && isValidUtf8 r
      | _ => false
    else if b = 0xED then
      match rest with
      | c1 :: c2 :: r => (0x80 ≤ c1 && c1 ≤ 0x9F) && isContByte c2 && isValidUtf8 r
      | _ => false
    else if b = 0xF0 then
      match rest with
      | c1 :: c2 :: c3 :: r =>
        (0x90 ≤ c1 && c1 ≤ 0xBF) && isContByte c2 && isContByte c3 && isValidUtf8 r
      | _ => false
    else if 0xF1 ≤ b && b ≤ 0xF3 then
      match rest with
      | c1 :: c2 :: c3 :: r =>
        isContByte c1 && isContByte c2 && isContByte c3 && isValidUtf8 r
      | _ => false
    else if b = 0xF4 then
      match rest with
      | c1 :: c2 :: c3 :: r =>
        (0x80 ≤ c1 && c1 ≤ 0x8F) && isContByte c2 && isContByte c3 && isValidUtf8 r
      | _ => false
    else false

/-- The loop of `DomainName::parse`, `question_answer.rs` lines
209-234: a zero byte terminates; a byte with top bits `11` combines
with the next byte into a 14-bit pointer and terminates; a length
above 63 reaches the abort macro; otherwise that many bytes are taken
as a literal label, where `String::from_utf8(..).expect(..)` aborts on
invalid UTF-8.  Exhausted input is a `nom` error. -/
def parseLabels (input : List Nat) : Res (List Label × List Nat) :=
  match input with
  | [] => .err
  | b :: rest =>
    if b = 0 then .ok ([], rest)
    else if b >>> 6 = 0x03 then
      match rest with
      | [] => .err
      | b2 :: rest2 => .ok ([.Pointer (((b &&& 0x3F) <<< 8) ||| b2)], rest2)
    else if b > 63 then .panicked
    else if rest.length < b then .err
    else
      let lbl := rest.take b
      if isValidUtf8 lbl then
        (parseLabels (rest.drop b)).map (fun p => (.Value lbl :: p.1, p.2))
      else .panicked
termination_by input.length
decreasing_by simp [List.length_drop]; omega

/-- Entry point of `DomainName::parse`. -/
def DomainName.parse (input : List Nat) : Res (DomainName × List Nat) :=
  (parseLabels input).map (fun p => ({ labels := p.1 }, p.2))

/-- The loop of `DomainName::write`, `question_answer.rs` lines
236-255: each literal is length-prefixed (error above 63 bytes), a
pointer reaches the unimplemented-code abort, and a zero byte
terminates. -/
def writeLabels : List Label → Res (List Nat)
  | [] => .ok [0]
  | .Value s :: rest =>
    if s.length > 63 then .err
    else (writeLabels rest).map (fun bs => s.length :: s ++ bs)
  | .Pointer _ :: _ => .panicked

/-- Entry point of `DomainName::write`. -/
def DomainName.write (n : DomainName) : Res (List Nat) :=
  writeLabels n.labels

/-- The `Question` struct, `question_answer.rs` lines 78-86 (`class`
is a Lean keyword, hence `cls`). -/
structure Question where
  name : DomainName
  ty : RecordType
  cls : Class
deriving DecidableEq, Repr

/-- Source `Question::length`, `question_answer.rs` lines 266-268: name
length plus 4 (type and class), a wrapping u16 addition; aborts
propagate from the name length. -/
def Question.length (q : Question) : Option Nat :=
  q.name.length.map (fun l => (l + 4) % 65536)

/-- Source `Question::get_label`, `question_answer.rs` lines 270-275: error
when the offset reaches the type/class fields, else delegate to the
name. -/
def Question.get_label (q : Question) (offset : Nat) : Res (List Nat) :=
  match q.name.length with
  | none => .panicked
  | some len => if offset ≥ len then .err else q.name.get_label offset

/-- Modelled from the spec: the literal labels of a name from a given
boundary to its end, every one of which must be a literal
(`every label materialized as Value`); a pointer among them is an
error, as in the singular `DomainName::get_label`. -/
def labelValues : List Label → Res (List (List Nat))
  | [] => .ok []
  | .Value s :: rest => (labelValues rest).map (fun ls => s :: ls)
  | .Pointer _ :: _ => .err

/-- Modelled from the spec: `DomainName::get_labels`, the label-list
lookup used by `Message::get_labels` (`mod.rs` line 116) whose
definition is absent from src; it mirrors the singular
`DomainName::get_label` (`question_answer.rs` lines 177-196) but
returns all labels from the matched boundary, failing on an offset
that does not land exactly on a label boundary. -/
def getLabelsAt : List Label → Nat → Res (List (List Nat))
  | [], _ => .err
  | l :: ls, off =>
    if off = 0 then labelValues (l :: ls)
    else if off < l.cost then .err
    else getLabelsAt ls (off - l.cost)

/-- Modelled from the spec: entry point of `DomainName::get_labels`. -/
def DomainName.get_labels (n : DomainName) (offset : Nat) : Res (List (List Nat)) :=
  getLabelsAt n.labels offset

/-- Modelled from the spec: `Question::get_labels`, the plural form of
`Question::get_label` (`question_answer.rs` lines 270-275) called by
`Message::get_labels`: error when the offset reaches the type/class
fields, else delegate to the name. -/
def Question.get_labels (q : Question) (offset : Nat) : Res (List (List Nat)) :=
  match q.name.length with
  | none => .panicked
  | some len => if offset ≥ len then .err else q.name.get_labels offset

/-- Source `ResourceRecordData`, `question_answer.rs` lines 104-108. -/
inductive ResourceRecordData where
  | IPv4 : Nat → Nat → Nat → Nat → ResourceRecordData
deriving DecidableEq, Repr

/-- The `ResourceRecord` struct, `question_answer.rs` lines 88-102. -/
structure ResourceRecord where
  name : DomainName
  ty : RecordType
  cls : Class
  time_to_live : Nat
  length : Nat
  data : ResourceRecordData
deriving DecidableEq, Repr

/-- The `Message` struct, `mod.rs` lines 12-19. -/
structure Message where
  header : Header
  questions : List Question
  answers : List ResourceRecord
  authorities : List ResourceRecord
  additionals : List ResourceRecord
deriving DecidableEq, Repr

/-- Source `Message::new_reply`, `mod.rs` lines 32-61.  The `len() as u16`
casts truncate modulo 2^16. -/
def Message.new_reply (query_message : Message) (questions : List Question)
    (answers : List ResourceRecord) : Message :=
  { header :=
      { packet_id := query_message.header.packet_id
      , is_response := true
      , op_code := query_message.header.op_code
      , authoritative_answer := false
      , truncation := false
      , recursion_desired := query_message.header.recursion_desired
      , recursion_available := false
      , reserved := 0
      , response_code :=
          match query_message.header.op_code with
          | .Query => .Ok
          | _ => .NotImplemented
      , question_count := questions.length % 65536
      , answer_record_count := answers.length % 65536
      , authority_record_count := 0
      , additional_record_count := 0 }
  , questions := questions
  , answers := answers
  , authorities := []
  , additionals := [] }

/-- The loop of `Message::get_labels`, `mod.rs` lines 113-122: walk
the questions accumulating `msg_offset`; when the offset falls inside
one question's span, delegate with the question-relative offset.
`msg_offset` is a `u16`, so `msg_offset + question.length()` wraps
modulo 2^16 (release semantics; a debug build aborts at the same
boundary).  The walk keeps `msg_offset` at most `offset`, so the
subtraction in the delegation never underflows.  Evaluating
`question.length()` on a root (empty-label) name aborts. -/
def getLabelsGo : List Question → Nat → Nat → Res (List (List Nat))
  | [], _, _ => .err
  | q :: qs, msgOff, offset =>
    match q.length with
    | none => .panicked
    | some len =>
      if offset < (msgOff + len) % 65536 then q.get_labels (offset - msgOff)
      else getLabelsGo qs ((msgOff + len) % 65536) offset

/-- Source `Message::get_labels`, `mod.rs` lines 109-124: offsets inside the
12-byte header are an error; the walk starts at message offset 12; an
offset beyond every question is an error. -/
def Message.get_labels (m : Message) (offset : Nat) : Res (List (List Nat)) :=
  if offset < 12 then .err
  else getLabelsGo m.questions 12 offset

/-- The loop of `DomainName::decompress`, `question_answer.rs` lines
198-207: literals are copied; a pointer is replaced by the literal
labels found at its message offset.  Modelled from the spec at the
lookup call: src calls a singular `Message::get_label` that is absent
from `mod.rs`; the spec materializes every label from the pointer
target, matching `Message::get_labels`. -/
def decompressLabels (m : Message) : List Label → Res (List Label)
  | [] => .ok []
  | .Value s :: rest => (decompressLabels m rest).map (fun ls => .Value s :: ls)
  | .Pointer off :: rest =>
    match m.get_labels off with
    | .ok strs => (decompressLabels m rest).map (fun ls => strs.map Label.Value ++ ls)
    | .err => .err
    | .panicked => .panicked

/-- Entry point of `DomainName::decompress`. -/
def DomainName.decompress (n : DomainName) (m : Message) : Res DomainName :=
  (decompressLabels m n.labels).map (fun ls => { labels := ls })

/-- Byte list of the ASCII string codecrafters. -/
def cdcBytes : List Nat := [99, 111, 100, 101, 99, 114, 97, 102, 116, 101, 114, 115]

/-- Byte list of the ASCII string io. -/
def ioBytes : List Nat := [105, 111]

/-- Byte list of the ASCII string abc. -/
def abcBytes : List Nat := [97, 98, 99]

/-- A query header with packet id 1234, opcode Query and the
recursion-desired flag set. -/
def queryHeader : Header :=
  { packet_id := 1234, is_response := false, op_code := .Query
  , authoritative_answer := false, truncation := false
  , recursion_desired := true, recursion_available := false
  , reserved := 0, response_code := .Ok
  , question_count := 1, answer_record_count := 0
  , authority_record_count := 0, additional_record_count := 0 }

/-- The single question for codecrafters.io. -/
def cdcQuestion : Question :=
  { name := { labels := [.Value cdcBytes, .Value ioBytes] }
  , ty := .Address, cls := .Internet }

/-- A message holding one codecrafters.io question, whose name starts
at message offset 12. -/
def cdcMessage : Message :=
  { header := queryHeader, questions := [cdcQuestion]
  , answers := [], authorities := [], additionals := [] }

/-- A question whose name is the DNS root (empty label list). -/
def rootQuestion : Question :=
  { name := { labels := [] }, ty := .Address, cls := .Internet }

/-- A message holding one root-name question. -/
def rootMessage : Message :=
  { header := queryHeader, questions := [rootQuestion]
  , answers := [], authorities := [], additionals := [] }

/-- A literal label of 59994 bytes, giving its question an on-wire
length of 60000. -/
def bigLabel1 : List Nat := List.replicate 59994 97

/-- A literal label of 9994 bytes, giving its question an on-wire
length of 10000. -/
def bigLabel2 : List Nat := List.replicate 9994 97

/-- A question of on-wire length 60000. -/
def bigQ1 : Question :=
  { name := { labels := [.Value bigLabel1] }, ty := .Address, cls := .Internet }

/-- A question of on-wire length 10000. -/
def bigQ2 : Question :=
  { name := { labels := [.Value bigLabel2] }, ty := .Address, cls := .Internet }

/-- A message whose two questions have cumulative length 70000, past
the u16 range of the label-lookup offset arithmetic. -/
def bigMessage : Message :=
  { header := queryHeader, questions := [bigQ1, bigQ2]
  , answers := [], authorities := [], additionals := [] }

/-- Wire bytes of a list of literal labels: each one length-prefixed,
in order, without a terminator (any tail is appended separately). -/
def labelBlocks (ls : List (List Nat)) : List Nat :=
  ls.foldr (fun s acc => s.length :: (s ++ acc)) []

/-- A literal label is wellformed when it is nonempty, at most 63
bytes and valid UTF-8 (the invariant of a Rust label `String`). -/
def goodLabel (s : List Nat) : Prop :=
  1 ≤ s.length ∧ s.length ≤ 63 ∧ isValidUtf8 s = true

instance (s : List Nat) : Decidable (goodLabel s) := by
  unfold goodLabel; infer_instance

theorem byte2_fields (a c d e : Bool) (op : OpCode) :
    (((((boolBit a <<< 7) ||| (op.toNat <<< 3) ||| (boolBit c <<< 2) |||
        (boolBit d <<< 1) ||| boolBit e) >>> 7) &&& 0x01) != 0) = a ∧
    OpCode.parse ((((boolBit a <<< 7) ||| (op.toNat <<< 3) ||| (boolBit c <<< 2) |||
        (boolBit d <<< 1) ||| boolBit e) >>> 3) &&& 0x0F) = op ∧
    (((((boolBit a <<< 7) ||| (op.toNat <<< 3) ||| (boolBit c <<< 2) |||
        (boolBit d <<< 1) ||| boolBit e) >>> 2) &&& 0x01) != 0) = c ∧
    (((((boolBit a <<< 7) ||| (op.toNat <<< 3) ||| (boolBit c <<< 2) |||
        (boolBit d <<< 1) ||| boolBit e) >>> 1) &&& 0x01) != 0) = d ∧
    ((((boolBit a <<< 7) ||| (op.toNat <<< 3) ||| (boolBit c <<< 2) |||
        (boolBit d <<< 1) ||| boolBit e) &&& 0x01) != 0) = e := by
  cases a <;> cases c <;> cases d <;> cases e <;> cases op <;> decide

theorem byte3_fields (ra : Bool) (res : Nat) (rc : ResponseCode) (hres : res ≤ 7) :
    (((((boolBit ra <<< 7) ||| ((res <<< 4) % 256) ||| rc.toNat) >>> 7) &&& 0x01) != 0) = ra ∧
    ((((boolBit ra <<< 7) ||| ((res <<< 4) % 256) ||| rc.toNat) >>> 4) &&& 0x07) = res ∧
    ResponseCode.parse (((boolBit ra <<< 7) ||| ((res <<< 4) % 256) ||| rc.toNat) &&& 0x0F)
      = rc := by
  cases ra <;> interval_cases res <;> cases rc <;> decide

theorem header_parse_write (h : Header) (hv : h.valid) :
    Header.parse h.write = .ok (h, []) := by
  obtain ⟨pid, isr, op, aa, tc, rd, ra, res, rc, qc, ac, auc, adc⟩ := h
  obtain ⟨h1, h2, h3, h4, h5, h6⟩ := hv
  dsimp only at h1 h2 h3 h4 h5 h6
  simp only [Header.write, putU16, List.cons_append, List.nil_append]
  simp only [Header.parse, Res.ok.injEq, Prod.mk.injEq, Header.mk.injEq]
  refine ⟨⟨by omega, ?_, ?_, ?_, ?_, ?_, ?_, ?_, ?_, by omega, by omega, by omega, by omega⟩,
    trivial⟩
  · exact (byte2_fields isr aa tc rd op).1
  · exact (byte2_fields isr aa tc rd op).2.1
  · exact (byte2_fields isr aa tc rd op).2.2.1
  · exact (byte2_fields isr aa tc rd op).2.2.2.1
  · exact (byte2_fields isr aa tc rd op).2.2.2.2
  · exact (byte3_fields ra res rc h2).1
  · exact (byte3_fields ra res rc h2).2.1
  · exact (byte3_fields ra res rc h2).2.2

/-- Claim C4: for every valid header (all bit-fields in range, in
particular reserved at most 7), encoding, decoding the bytes back and
encoding again yields the same 12 bytes as the first encoding. -/
theorem header_encode_decode_encode (h : Header) (hv : h.valid) :
    ∃ h2 rest, Header.parse h.write = .ok (h2, rest) ∧ h2.write = h.write :=
  ⟨h, [], header_parse_write h hv, rfl⟩

/-- Witness for claim C4 at a concrete valid header. -/
theorem header_encode_decode_encode_witness :
    queryHeader.valid ∧
      ∃ h2 rest, Header.parse queryHeader.write = .ok (h2, rest) ∧
        h2.write = queryHeader.write :=
  ⟨by decide, header_encode_decode_encode queryHeader (by decide)⟩

/-- Claim C5: header decoding errs on fewer than 12 bytes and succeeds
on any 12, consuming exactly 12; an out-of-range opcode field decodes
to the Invalid tag and an out-of-range response-code field decodes to
the Invalid tag instead of failing the parse. -/
theorem header_parse_total (input : List Nat) :
    (input.length < 12 → Header.parse input = .err) ∧
    (12 ≤ input.length →
      ∃ h, Header.parse input = .ok (h, input.drop 12) ∧
        (3 ≤ ((input.getD 2 0 >>> 3) &&& 0x0F) → h.op_code = .Invalid) ∧
        (6 ≤ (input.getD 3 0 &&& 0x0F) → h.response_code = .Invalid)) := by
  rcases input with _ | ⟨b0, _ | ⟨b1, _ | ⟨b2, _ | ⟨b3, _ | ⟨c0, _ | ⟨c1, _ | ⟨c2, _ |
    ⟨c3, _ | ⟨c4, _ | ⟨c5, _ | ⟨c6, _ | ⟨c7, rest⟩⟩⟩⟩⟩⟩⟩⟩⟩⟩⟩⟩
  case nil => exact ⟨fun _ => rfl, by intro hlen; simp at hlen⟩
  case cons.nil => exact ⟨fun _ => rfl, by intro hlen; simp at hlen⟩
  case cons.cons.nil => exact ⟨fun _ => rfl, by intro hlen; simp at hlen⟩
  case cons.cons.cons.nil => exact ⟨fun _ => rfl, by intro hlen; simp at hlen⟩
  case cons.cons.cons.cons.nil => exact ⟨fun _ => rfl, by intro hlen; simp at hlen⟩
  case cons.cons.cons.cons.cons.nil => exact ⟨fun _ => rfl, by intro hlen; simp at hlen⟩
  case cons.cons.cons.cons.cons.cons.nil => exact ⟨fun _ => rfl, by intro hlen; simp at hlen⟩
  case cons.cons.cons.cons.cons.cons.cons.nil =>
    exact ⟨fun _ => rfl, by intro hlen; simp at hlen⟩
  case cons.cons.cons.cons.cons.cons.cons.cons.nil =>
    exact ⟨fun _ => rfl, by intro hlen; simp at hlen⟩
  case cons.cons.cons.cons.cons.cons.cons.cons.cons.nil =>
    exact ⟨fun _ => rfl, by intro hlen; simp at hlen⟩
  case cons.cons.cons.cons.cons.cons.cons.cons.cons.cons.nil =>
    exact ⟨fun _ => rfl, by intro hlen; simp at hlen⟩
  case cons.cons.cons.cons.cons.cons.cons.cons.cons.cons.cons.nil =>
    exact ⟨fun _ => rfl, by intro hlen; simp at hlen⟩
  case cons.cons.cons.cons.cons.cons.cons.cons.cons.cons.cons.cons =>
    refine ⟨by intro hlen; simp at hlen; omega, fun _ => ⟨_, rfl, ?_, ?_⟩⟩
    · intro hv
      simp only [List.getD_cons_succ, List.getD_cons_zero] at hv
      show OpCode.parse ((b2 >>> 3) &&& 0x0F) = .Invalid
      unfold OpCode.parse
      rw [if_neg (by omega), if_neg (by omega), if_neg (by omega)]
    · intro hv
      simp only [List.getD_cons_succ, List.getD_cons_zero] at hv
      show ResponseCode.parse (b3 &&& 0x0F) = .Invalid
      unfold ResponseCode.parse
      rw [if_neg (by omega), if_neg (by omega), if_neg (by omega), if_neg (by omega),
        if_neg (by omega), if_neg (by omega)]

/-- Witness for claim C5: a 3-byte buffer errs; a 12-byte buffer with
opcode field 15 and response-code field 15 parses to Invalid tags. -/
theorem header_parse_total_witness :
    (([0, 0, 0] : List Nat).length < 12 ∧ Header.parse [0, 0, 0] = .err) ∧
    (12 ≤ ([0, 0, 255, 255, 0, 0, 0, 0, 0, 0, 0, 0] : List Nat).length ∧
      ∃ h, Header.parse [0, 0, 255, 255, 0, 0, 0, 0, 0, 0, 0, 0] = .ok (h, []) ∧
        h.op_code = .Invalid ∧ h.response_code = .Invalid) := by
  refine ⟨⟨by decide, (header_parse_total [0, 0, 0]).1 (by decide)⟩, by decide, ?_⟩
  obtain ⟨h, hok, hop, hrc⟩ := (header_parse_total [0, 0, 255, 255, 0, 0, 0, 0, 0, 0, 0, 0]).2
    (by decide)
  exact ⟨h, by simpa using hok, hop (by decide), hrc (by decide)⟩

/-- Claim C1 counterexample: on a query whose recursion-desired flag
is set, new_reply copies the flag instead of clearing it, refuting the
claim that all four flags come out false. -/
theorem new_reply_rd_copied_cex :
    ¬ ((Message.new_reply cdcMessage [] []).header.recursion_desired = false) := by
  decide

/-- Claim C1 (amended): new_reply copies the packet id and opcode from
the query, sets is_response, derives the response code from the opcode
(Ok for Query, NotImplemented otherwise), takes the counts from the
supplied vector lengths (u16 casts, exact when the lengths fit in 16
bits), leaves the authority and additional sections empty with zero
counts, clears recursion-available, authoritative-answer and
truncation, and copies — not clears — recursion-desired from the
query. -/
theorem new_reply_header_spec (q : Message) (questions : List Question)
    (answers : List ResourceRecord)
    (hq : questions.length < 65536) (ha : answers.length < 65536) :
    (Message.new_reply q questions answers).header.packet_id = q.header.packet_id ∧
    (Message.new_reply q questions answers).header.is_response = true ∧
    (Message.new_reply q questions answers).header.op_code = q.header.op_code ∧
    (Message.new_reply q questions answers).header.response_code =
      (if q.header.op_code = .Query then .Ok else .NotImplemented) ∧
    (Message.new_reply q questions answers).header.question_count = questions.length ∧
    (Message.new_reply q questions answers).header.answer_record_count = answers.length ∧
    (Message.new_reply q questions answers).header.authority_record_count = 0 ∧
    (Message.new_reply q questions answers).header.additional_record_count = 0 ∧
    (Message.new_reply q questions answers).questions = questions ∧
    (Message.new_reply q questions answers).answers = answers ∧
    (Message.new_reply q questions answers).authorities = [] ∧
    (Message.new_reply q questions answers).additionals = [] ∧
    (Message.new_reply q questions answers).header.recursion_desired =
      q.header.recursion_desired ∧
    (Message.new_reply q questions answers).header.recursion_available = false ∧
    (Message.new_reply q questions answers).header.authoritative_answer = false ∧
    (Message.new_reply q questions answers).header.truncation = false := by
  refine ⟨rfl, rfl, rfl, ?_, Nat.mod_eq_of_lt hq, Nat.mod_eq_of_lt ha, rfl, rfl,
    rfl, rfl, rfl, rfl, rfl, rfl, rfl, rfl⟩
  show (match q.header.op_code with | .Query => ResponseCode.Ok | _ => .NotImplemented) = _
  cases q.header.op_code <;> rfl

/-- Witness for claim C1 (amended) on the codecrafters query. -/
theorem new_reply_header_spec_witness :
    (Message.new_reply cdcMessage [] []).header.packet_id = cdcMessage.header.packet_id ∧
    (Message.new_reply cdcMessage [] []).header.is_response = true ∧
    (Message.new_reply cdcMessage [] []).header.recursion_desired =
      cdcMessage.header.recursion_desired := by
  have h := new_reply_header_spec cdcMessage [] [] (by decide) (by decide)
  exact ⟨h.1, h.2.1, h.2.2.2.2.2.2.2.2.2.2.2.2.1⟩

/-- Folding label costs with wrapping u16 additions from an in-range
accumulator yields the summed costs plus the accumulator, reduced
modulo 2^16. -/
theorem foldl_wrapcost (ls : List Label) (a : Nat) (ha : a < 65536) :
    ls.foldl (fun acc l => (acc + l.cost) % 65536) a =
      (a + (ls.map Label.cost).sum) % 65536 := by
  induction ls generalizing a with
  | nil => simp [Nat.mod_eq_of_lt ha]
  | cons l t ih =>
    rw [List.foldl_cons, ih _ (Nat.mod_lt _ (by norm_num)), Nat.mod_add_mod]
    simp [Nat.add_assoc]

/-- Claim C6 counterexample: the name with literal labels abc and io
has encoded length 8, not the claimed 9. -/
theorem abc_io_length_cex :
    DomainName.length { labels := [.Value abcBytes, .Value ioBytes] } ≠ some 9 := by
  decide

/-- Claim C6 (amended): the name with labels abc and io has length 8
(two length-prefixed labels plus a terminator, 1+3 + 1+2 + 1); a name
whose final label is a pointer has length equal to the summed cost of
the labels before the pointer plus exactly 2, with no terminator,
reduced modulo 2^16 by the u16 accumulation — exact whenever that
total fits in 16 bits; and a question has length equal to its name
length plus 4, again a u16 addition. -/
theorem length_accounting :
    DomainName.length { labels := [.Value abcBytes, .Value ioBytes] } = some 8 ∧
    (∀ (ls : List Label) (p : Nat),
      DomainName.length { labels := ls ++ [.Pointer p] } =
        some (((ls.map Label.cost).sum + 2) % 65536)) ∧
    (∀ q : Question, q.length = q.name.length.map (fun l => (l + 4) % 65536)) ∧
    (∀ (ls : List Label) (p : Nat), (ls.map Label.cost).sum + 2 < 65536 →
      DomainName.length { labels := ls ++ [.Pointer p] } =
        some ((ls.map Label.cost).sum + 2)) := by
  have hmod : ∀ (ls : List Label) (p : Nat),
      DomainName.length { labels := ls ++ [.Pointer p] } =
        some (((ls.map Label.cost).sum + 2) % 65536) := by
    intro ls p
    simp only [DomainName.length, List.getLast?_concat]
    rw [foldl_wrapcost _ 0 (by norm_num)]
    simp [Label.cost]
  refine ⟨by decide, hmod, fun q => rfl, ?_⟩
  intro ls p hfit
  rw [hmod ls p, Nat.mod_eq_of_lt hfit]

/-- Witness for claim C6 (amended): the name abc followed by a
pointer has length 4 + 2 = 6, within the u16 range. -/
theorem length_accounting_witness :
    ([Label.Value abcBytes].map Label.cost).sum + 2 < 65536 ∧
    DomainName.length { labels := [Label.Value abcBytes] ++ [.Pointer 12] } = some 6 := by
  refine ⟨by decide, ?_⟩
  have h := length_accounting.2.2.2 [Label.Value abcBytes] 12 (by decide)
  simpa [Label.cost, abcBytes] using h

/-- Claim C9: a single zero byte parses to the root name with an empty
label list; computing that name's length unwraps the last element of
an empty list and aborts, as do the question length built on it and
the message-level label lookup on a message whose question is the root
name. -/
theorem root_name_aborts :
    DomainName.parse [0] = .ok ({ labels := [] }, []) ∧
    DomainName.length { labels := [] } = none ∧
    Question.length rootQuestion = none ∧
    (∀ off, 12 ≤ off → Message.get_labels rootMessage off = .panicked) := by
  refine ⟨?_, by decide, by decide, ?_⟩
  · rw [DomainName.parse, parseLabels]
    rfl
  · intro off hoff
    have hq : Question.length rootQuestion = none := by decide
    simp [Message.get_labels, rootMessage, Nat.not_lt.mpr hoff, getLabelsGo, hq]

/-- Witness for claim C9 at offset 12. -/
theorem root_name_aborts_witness :
    (12 : Nat) ≤ 12 ∧ Message.get_labels rootMessage 12 = .panicked :=
  ⟨le_refl 12, root_name_aborts.2.2.2 12 (le_refl 12)⟩

/-- Unfolding equation of the parse loop at a nonempty input. -/
theorem parseLabels_cons (b : Nat) (rest : List Nat) :
    parseLabels (b :: rest) =
      (if b = 0 then .ok ([], rest)
       else if b >>> 6 = 0x03 then
         match rest with
         | [] => .err
         | b2 :: rest2 => .ok ([.Pointer (((b &&& 0x3F) <<< 8) ||| b2)], rest2)
       else if b > 63 then .panicked
       else if rest.length < b then .err
       else
         let lbl := rest.take b
         if isValidUtf8 lbl then
           (parseLabels (rest.drop b)).map (fun p => (.Value lbl :: p.1, p.2))
         else .panicked) := by
  rw [parseLabels.eq_def]

/-- Parsing one wellformed length-prefixed literal label consumes it
and prepends the corresponding Value label. -/
theorem parseLabels_cons_value (s tail : List Nat) (h1 : 1 ≤ s.length)
    (h63 : s.length ≤ 63) (hv : isValidUtf8 s = true) :
    parseLabels (s.length :: (s ++ tail)) =
      (parseLabels tail).map (fun p => (.Value s :: p.1, p.2)) := by
  have hne : ¬ s.length = 0 := by omega
  have hs6 : ¬ (s.length >>> 6 = 0x03) := by
    rw [Nat.shiftRight_eq_div_pow]; omega
  have hgt : ¬ (s.length > 63) := by omega
  have hlen : ¬ ((s ++ tail).length < s.length) := by
    simp [List.length_append]
  rw [parseLabels_cons]
  rw [if_neg hne, if_neg hs6, if_neg hgt, if_neg hlen]
  simp only [List.take_left, List.drop_left, hv, if_true]

/-- Parsing a run of wellformed length-prefixed labels followed by any
tail parses the tail and prepends the run as Value labels. -/
theorem parseLabels_blocks (ls : List (List Nat)) (tail : List Nat)
    (h : ∀ s ∈ ls, goodLabel s) :
    parseLabels (labelBlocks ls ++ tail) =
      (parseLabels tail).map (fun p => (ls.map Label.Value ++ p.1, p.2)) := by
  induction ls with
  | nil =>
    simp only [labelBlocks, List.foldr_nil, List.nil_append, List.map_nil]
    cases parseLabels tail <;> simp [Res.map]
  | cons s t ih =>
    obtain ⟨hs1, hs63, hsv⟩ := h s (by simp)
    have ht : ∀ x ∈ t, goodLabel x := fun x hx => h x (by simp [hx])
    simp only [labelBlocks, List.foldr_cons] at *
    rw [List.cons_append, List.append_assoc]
    rw [parseLabels_cons_value s _ hs1 hs63 hsv, ih ht]
    cases parseLabels tail <;> simp [Res.map]

theorem parseLabels_nil_byte : parseLabels [0] = .ok ([], []) := by
  rw [parseLabels_cons]
  rfl

/-- Writing a list of literal labels, each at most 63 bytes, yields
the length-prefixed blocks followed by the zero terminator. -/
theorem writeLabels_values (ls : List (List Nat)) (h : ∀ s ∈ ls, s.length ≤ 63) :
    writeLabels (ls.map Label.Value) = .ok (labelBlocks ls ++ [0]) := by
  induction ls with
  | nil => simp [writeLabels, labelBlocks]
  | cons s t ih =>
    have hs : ¬ (s.length > 63) := by
      have := h s (by simp); omega
    have ht : ∀ x ∈ t, x.length ≤ 63 := fun x hx => h x (by simp [hx])
    simp [writeLabels, labelBlocks, hs, ih ht, Res.map, List.append_assoc]

/-- Claim C8: a name whose labels are all wellformed literal labels
(1 to 63 bytes each) encodes successfully, and decoding the produced
bytes reproduces exactly the same label sequence. -/
theorem name_write_parse_roundtrip (n : DomainName) (ls : List (List Nat))
    (hn : n.labels = ls.map Label.Value) (h : ∀ s ∈ ls, goodLabel s) :
    ∃ bytes, n.write = .ok bytes ∧ DomainName.parse bytes = .ok (n, []) := by
  refine ⟨labelBlocks ls ++ [0], ?_, ?_⟩
  · rw [DomainName.write, hn]
    exact writeLabels_values ls (fun s hs => (h s hs).2.1)
  · rw [DomainName.parse, parseLabels_blocks ls [0] h, parseLabels_nil_byte]
    simp only [Res.map, List.append_nil]
    rw [← hn]

/-- Witness for claim C8 on the abc.io name. -/
theorem name_write_parse_roundtrip_witness :
    ∃ bytes,
      DomainName.write { labels := [.Value abcBytes, .Value ioBytes] } = .ok bytes ∧
      DomainName.parse bytes =
        .ok ({ labels := [.Value abcBytes, .Value ioBytes] }, []) :=
  name_write_parse_roundtrip { labels := [.Value abcBytes, .Value ioBytes] }
    [abcBytes, ioBytes] rfl (by decide)

/-- Claim C3: when the name parser meets a length-or-tag byte whose
top two bits are not 11 and whose value exceeds 63 (values 64 to 191),
it executes the abort macro — the process crashes instead of returning
the recoverable parse failure the claim requires. -/
theorem oversize_length_byte_panics (ls : List (List Nat)) (b : Nat) (rest : List Nat)
    (h : ∀ s ∈ ls, goodLabel s) (hb1 : 64 ≤ b) (hb2 : b ≤ 191) :
    DomainName.parse (labelBlocks ls ++ b :: rest) = .panicked := by
  have h0 : ¬ b = 0 := by omega
  have h6 : ¬ (b >>> 6 = 0x03) := by rw [Nat.shiftRight_eq_div_pow]; omega
  have h63 : b > 63 := by omega
  rw [DomainName.parse, parseLabels_blocks ls _ h]
  rw [parseLabels_cons]
  rw [if_neg h0, if_neg h6, if_pos h63]
  rfl

/-- Witness for claim C3: the buffer with single length byte 64
crashes the parser. -/
theorem oversize_length_byte_panics_witness :
    DomainName.parse [64] = .panicked := by
  have h := oversize_length_byte_panics [] 64 [] (by decide) (by decide) (by decide)
  simpa [labelBlocks] using h

/-- Claim C10: when the name parser reads a literal label whose bytes
are not valid UTF-8, the expect call on the UTF-8 conversion executes
the abort path: the decode crashes instead of rejecting the datagram
as malformed. -/
theorem invalid_utf8_label_panics (ls : List (List Nat)) (bad rest : List Nat)
    (h : ∀ s ∈ ls, goodLabel s) (h1 : 1 ≤ bad.length) (h63 : bad.length ≤ 63)
    (hv : isValidUtf8 bad = false) :
    DomainName.parse (labelBlocks ls ++ (bad.length :: (bad ++ rest))) = .panicked := by
  have hne : ¬ bad.length = 0 := by omega
  have hs6 : ¬ (bad.length >>> 6 = 0x03) := by
    rw [Nat.shiftRight_eq_div_pow]; omega
  have hgt : ¬ (bad.length > 63) := by omega
  have hlen : ¬ ((bad ++ rest).length < bad.length) := by
    simp [List.length_append]
  rw [DomainName.parse, parseLabels_blocks ls _ h]
  rw [parseLabels_cons]
  rw [if_neg hne, if_neg hs6, if_neg hgt, if_neg hlen]
  simp only [List.take_left, List.drop_left, hv]
  rfl

/-- Witness for claim C10: a label of one byte 255 (not valid UTF-8)
crashes the parser. -/
theorem invalid_utf8_label_panics_witness :
    DomainName.parse [1, 255] = .panicked := by
  have h := invalid_utf8_label_panics [] [255] [] (by decide) (by decide) (by decide)
    (by decide)
  simpa [labelBlocks] using h

/-- Characterization of the question walk: given the questions'
lengths, an offset at or beyond the (unwrapped) total is an error, and
— provided the accumulated u16 offsets never wrap — an offset inside
the span of question i delegates to that question at the span-relative
offset. -/
theorem getLabelsGo_walk (qs : List Question) (lens : List Nat) (base offset : Nat)
    (hl : qs.map Question.length = lens.map some) :
    (base + lens.sum ≤ offset → getLabelsGo qs base offset = .err) ∧
    (base + lens.sum < 65536 →
      ∀ i (hi : i < qs.length),
      base + (lens.take i).sum ≤ offset →
      offset < base + (lens.take (i + 1)).sum →
      getLabelsGo qs base offset =
        (qs.get ⟨i, hi⟩).get_labels (offset - (base + (lens.take i).sum))) := by
  induction qs generalizing lens base with
  | nil =>
    refine ⟨fun _ => rfl, ?_⟩
    intro hfit i hi
    simp at hi
  | cons q qs ih =>
    cases lens with
    | nil => simp at hl
    | cons L lt =>
      simp only [List.map_cons, List.cons.injEq] at hl
      obtain ⟨hq, hrest⟩ := hl
      constructor
      · intro hle
        simp only [List.sum_cons] at hle
        have hwrap : (base + L) % 65536 ≤ base + L := Nat.mod_le _ _
        have hge : ¬ offset < (base + L) % 65536 := by omega
        simp only [getLabelsGo, hq, if_neg hge]
        exact (ih lt ((base + L) % 65536) hrest).1 (by omega)
      · intro hfit i hi hlow hhigh
        simp only [List.sum_cons] at hfit
        have hmod : (base + L) % 65536 = base + L := Nat.mod_eq_of_lt (by omega)
        match i with
        | 0 =>
          simp only [List.take_succ_cons, List.take_zero, List.sum_cons, List.sum_nil,
            Nat.add_zero] at hlow hhigh ⊢
          have hlt : offset < (base + L) % 65536 := by omega
          simp only [getLabelsGo, hq, if_pos hlt]
          rfl
        | Nat.succ j =>
          simp only [List.take_succ_cons, List.sum_cons] at hlow hhigh ⊢
          have hge : ¬ offset < (base + L) % 65536 := by omega
          simp only [getLabelsGo, hq, if_neg hge]
          rw [hmod]
          have h2 := (ih lt (base + L) hrest).2 (by omega) j (by simpa using hi)
            (by omega) (by omega)
          rw [h2]
          simp only [List.get]
          congr 1
          omega

/-- Length of a name made of one literal label of L bytes: the
length-prefixed label plus the terminator, L + 2, when that fits the
u16 accumulator. -/
theorem single_label_length (s : List Nat) (L : Nat) (hs : s.length = L)
    (hL : L + 2 < 65536) :
    DomainName.length { labels := [Label.Value s] } = some (L + 2) := by
  simp only [DomainName.length, List.foldl_cons, List.foldl_nil, Label.cost, hs,
    List.getLast?_singleton]
  have h1 : L % 65536 = L := Nat.mod_eq_of_lt (by omega)
  rw [h1]
  have h2 : (0 + (1 + L)) % 65536 = 1 + L := by
    rw [Nat.mod_eq_of_lt (by omega)]; omega
  rw [h2]
  have h3 : (1 + L + 1) % 65536 = L + 2 := by
    rw [Nat.mod_eq_of_lt (by omega)]; omega
  rw [h3]

/-- On-wire length of a question whose name is one literal label of L
bytes: L + 6, when that fits the u16 arithmetic. -/
theorem single_label_question_length (q : Question) (s : List Nat) (L : Nat)
    (hq : q.name = { labels := [Label.Value s] }) (hs : s.length = L)
    (hL : L + 6 < 65536) :
    Question.length q = some (L + 6) := by
  rw [Question.length, hq, single_label_length s L hs (by omega)]
  show some ((L + 2 + 4) % 65536) = some (L + 6)
  rw [Nat.mod_eq_of_lt (by omega)]

/-- Claim C7 counterexample: questions of lengths 60000 and 10000 and
offset 60012.  The offset lies inside the second question's span, but
the u16 accumulation `msg_offset + question.length()` wraps 60012 +
10000 to 4476 (a debug build aborts at the same addition), so the
walk never enters the span and returns an error, while delegation to
the second question at the span-relative offset 0 would succeed. -/
theorem message_get_labels_wrap_cex :
    Message.get_labels bigMessage 60012 = .err ∧
    Question.get_labels bigQ2 0 = .ok [bigLabel2] := by
  have hlen1 : bigLabel1.length = 59994 := by
    rw [bigLabel1, List.length_replicate]
  have hlen2 : bigLabel2.length = 9994 := by
    rw [bigLabel2, List.length_replicate]
  have hq1 : Question.length bigQ1 = some 60000 :=
    single_label_question_length bigQ1 bigLabel1 59994 rfl hlen1 (by norm_num)
  have hn2 : DomainName.length { labels := [Label.Value bigLabel2] } = some 9996 :=
    single_label_length bigLabel2 9994 hlen2 (by norm_num)
  have hq2 : Question.length bigQ2 = some 10000 :=
    single_label_question_length bigQ2 bigLabel2 9994 rfl hlen2 (by norm_num)
  constructor
  · simp [Message.get_labels, bigMessage, getLabelsGo, hq1, hq2]
  · simp [Question.get_labels, bigQ2, hn2, DomainName.get_labels, getLabelsAt,
      labelValues, Res.map]

/-- Claim C7 (amended): the message-level label lookup errs for
offsets inside the 12-byte header and for offsets at or beyond the end
of the last question's span; and, provided the accumulated spans fit
the 16-bit offset arithmetic (12 plus the total question length below
2^16), it walks the question list accumulating question lengths until
the offset falls in one question's span, delegating to that question
at the question-relative offset. -/
theorem message_get_labels_walk (m : Message) (offset : Nat) (lens : List Nat)
    (hl : m.questions.map Question.length = lens.map some) :
    (offset < 12 → m.get_labels offset = .err) ∧
    (12 + lens.sum ≤ offset → m.get_labels offset = .err) ∧
    (12 + lens.sum < 65536 →
      ∀ i (hi : i < m.questions.length),
      12 + (lens.take i).sum ≤ offset →
      offset < 12 + (lens.take (i + 1)).sum →
      m.get_labels offset =
        (m.questions.get ⟨i, hi⟩).get_labels (offset - (12 + (lens.take i).sum))) := by
  refine ⟨fun h => by simp [Message.get_labels, h], ?_, ?_⟩
  · intro h
    have h12 : ¬ offset < 12 := by omega
    simp only [Message.get_labels, if_neg h12]
    exact (getLabelsGo_walk m.questions lens 12 offset hl).1 h
  · intro hfit i hi hlow hhigh
    have h12 : ¬ offset < 12 := by
      have hpos : 12 ≤ 12 + (lens.take i).sum := by omega
      omega
    simp only [Message.get_labels, if_neg h12]
    exact (getLabelsGo_walk m.questions lens 12 offset hl).2 hfit i hi hlow hhigh

/-- Witness for claim C7 (amended) on the codecrafters message
(question span 12 to 32 inclusive, total length 21, well within the
u16 range). -/
theorem message_get_labels_walk_witness :
    Message.get_labels cdcMessage 5 = .err ∧
    Message.get_labels cdcMessage 40 = .err ∧
    Message.get_labels cdcMessage 13 = cdcQuestion.get_labels 1 := by
  refine ⟨(message_get_labels_walk cdcMessage 5 [21] (by decide)).1 (by decide),
    (message_get_labels_walk cdcMessage 40 [21] (by decide)).2.1 (by decide), ?_⟩
  have h3 := (message_get_labels_walk cdcMessage 13 [21] (by decide)).2.2 (by decide) 0
    (by decide) (by decide) (by decide)
  simpa [cdcMessage] using h3

/-- Claim C2: decompressing the single-pointer name targeting offset
12 against the codecrafters.io message yields exactly the two literal
labels; a pointer offset before the header (below 12), beyond the
question section (33 or more), or not exactly on a label boundary
(only 12 and 25 are boundaries) is an error. -/
theorem decompress_pointer_resolution :
    DomainName.decompress { labels := [.Pointer 12] } cdcMessage =
      .ok { labels := [.Value cdcBytes, .Value ioBytes] } ∧
    (∀ off, off < 12 →
      DomainName.decompress { labels := [.Pointer off] } cdcMessage = .err) ∧
    (∀ off, 33 ≤ off →
      DomainName.decompress { labels := [.Pointer off] } cdcMessage = .err) ∧
    (∀ off, off < 33 → off ≠ 12 → off ≠ 25 →
      DomainName.decompress { labels := [.Pointer off] } cdcMessage = .err) := by
  refine ⟨by decide, ?_, ?_, ?_⟩
  · intro off h
    simp [DomainName.decompress, decompressLabels, Message.get_labels, h, Res.map]
  · intro off h
    have h12 : ¬ off < 12 := by omega
    have hq : Question.length cdcQuestion = some 21 := by decide
    have h33 : ¬ off < 12 + 21 := by omega
    simp [DomainName.decompress, decompressLabels, Message.get_labels, cdcMessage,
      h12, getLabelsGo, hq, h33, Res.map]
  · intro off h1 h2 h3
    interval_cases off <;> first
      | exact absurd rfl h2
      | exact absurd rfl h3
      | decide

/-- Witness for claim C2 at concrete failing offsets 5 (header), 40
(beyond the questions) and 13 (not a label boundary). -/
theorem decompress_pointer_resolution_witness :
    DomainName.decompress { labels := [.Pointer 5] } cdcMessage = .err ∧
    DomainName.decompress { labels := [.Pointer 40] } cdcMessage = .err ∧
    DomainName.decompress { labels := [.Pointer 13] } cdcMessage = .err :=
  ⟨decompress_pointer_resolution.2.1 5 (by decide),
   decompress_pointer_resolution.2.2.1 40 (by decide),
   decompress_pointer_resolution.2.2.2 13 (by decide) (by decide) (by decide)⟩

end DnsCodec
